import Mathlib

/-!
Shallow embedding of the LinuxNetAPI network-configuration engine
(`src/main.py`, class `NetworkManager` plus its FastAPI endpoints) and
proofs about the claims of its specification.

Conventions of the embedding:
* Python strings are Lean `String`s; the helpers below (`pyStrip`,
  `pyStartsWith`, `pyContains`, `splitlines`) model the Python string
  methods on the ASCII fragment the program manipulates.
* Fallible Python code (raised exceptions) is modelled with `Option` /
  explicit exception values; external commands are modelled by an
  oracle `ExecEnv` that says, per command line, whether the invocation
  succeeds, exits non-zero (`CalledProcessError`) or is absent
  (`FileNotFoundError`).  Every `subprocess.run` performed is recorded
  in a trace.
* The netplan YAML store is modelled at the parsed-document level: a
  list of (path, content) pairs, where a content is either unparsable
  or a mapping from interface names to per-interface settings.
-/

namespace LinuxNetAPI

/-! ## Python string primitives -/

/-- Characters treated as whitespace by Python `str.strip` (ASCII fragment). -/
def pyWs (c : Char) : Bool :=
  c = ' ' || c = '\t' || c = '\n' || c = '\r' || c = Char.ofNat 11 || c = Char.ofNat 12

/-- Model of Python `str.strip` on a character list. -/
def stripList (l : List Char) : List Char :=
  ((l.dropWhile pyWs).reverse.dropWhile pyWs).reverse

/-- Model of Python `str.strip`. -/
def pyStrip (s : String) : String :=
  String.mk (stripList s.toList)

/-- Model of Python `str.startswith`. -/
def pyStartsWith (s pat : String) : Bool :=
  pat.toList.isPrefixOf s.toList

/-- Substring test on character lists (Python `pat in s`). -/
def containsSub (pat : List Char) : List Char → Bool
  | [] => pat.isEmpty
  | c :: rest => pat.isPrefixOf (c :: rest) || containsSub pat rest

/-- Model of Python `pat in s` for strings. -/
def pyContains (s pat : String) : Bool :=
  containsSub pat.toList s.toList

/-- Split a character list on a separator character; structural so that
the kernel can evaluate it (Python `str.split(sep)` semantics). -/
def splitOnCharAux (sep : Char) : List Char → List Char → List (List Char)
  | [], acc => [acc.reverse]
  | c :: rest, acc =>
    if c = sep then acc.reverse :: splitOnCharAux sep rest []
    else splitOnCharAux sep rest (c :: acc)

/-- Model of Python `s.split(sep)` for a one-character separator. -/
def pySplit (sep : Char) (s : String) : List String :=
  (splitOnCharAux sep s.toList []).map String.mk

/-- Model of Python `str.splitlines` for newline-separated text. -/
def splitlines (s : String) : List String :=
  match s.toList with
  | [] => []
  | l =>
    (splitOnCharAux '\n' (if l.getLast? = some '\n' then l.dropLast else l) []).map String.mk

/-- Model of Python `sep.join(parts)`. -/
def joinWith (sep : String) : List String → String
  | [] => ""
  | [x] => x
  | x :: y :: rest => x ++ sep ++ joinWith sep (y :: rest)

/-! ## Bit counting (Python `bin(n).count(chr(49))` / `format(n, binspec).count`) -/

/-- Fuel-driven helper so that `popcount` reduces by kernel computation. -/
def popcountAux : Nat → Nat → Nat
  | 0, _ => 0
  | _ + 1, 0 => 0
  | fuel + 1, n => n % 2 + popcountAux fuel (n / 2)

/-- Number of 1 bits in the binary representation of `n`. -/
def popcount (n : Nat) : Nat :=
  popcountAux n n

/-! ## Python `int(str)` (base 10) -/

/-- Value of a non-empty all-digit character list, `none` otherwise. -/
def digitsToNat (l : List Char) : Option Nat :=
  if l ≠ [] ∧ l.all Char.isDigit then
    some (l.foldl (fun a c => a * 10 + (c.toNat - 48)) 0)
  else none

/-- Model of Python `int(s)` in base 10: optional surrounding whitespace,
optional sign, then decimal digits (digit-group underscores are not
modelled; no input in this development uses them). -/
def pyInt (s : String) : Option Int :=
  match stripList s.toList with
  | '-' :: rest => (digitsToNat rest).map (fun n => -(n : Int))
  | '+' :: rest => (digitsToNat rest).map (fun n => (n : Int))
  | t => (digitsToNat t).map (fun n => (n : Int))

/-- Sequence a fallible map over a list, stopping at the first failure,
as a Python loop raising at the first bad element does. -/
def mapMOpt {α β : Type} (f : α → Option β) : List α → Option (List β)
  | [] => some []
  | a :: t =>
    match f a with
    | none => none
    | some b => (mapMOpt f t).map (fun r => b :: r)

/-! ## AddressMath: `_calculate_cidr` (effective, second definition, lines 547-553),
`_prefix_to_netmask` (lines 175-178) and the shadowed first
`_calculate_cidr` (lines 472-485). -/

/-- Netmask to prefix length as in the effective `_calculate_cidr`
(src/main.py lines 549-552): split the netmask on dots, render each
octet with `format(int(octet), binspec)` and count the 1 characters.
`none` models the uncaught `ValueError` of `int` on a bad octet; a
negative octet renders as a sign plus the binary of its absolute value,
hence `Int.natAbs`. -/
def netmask_to_prefix_len (netmask : String) : Option Nat :=
  (mapMOpt pyInt (pySplit '.' netmask)).map
    (fun vals => vals.foldl (fun a v => a + popcount v.natAbs) 0)

/-- Effective `_calculate_cidr` (src/main.py lines 547-553); it has no
try/except, so a bad octet makes it raise (`none`). -/
def calculate_cidr (ip_address netmask : String) : Option String :=
  (netmask_to_prefix_len netmask).map
    (fun p => ip_address ++ "/" ++ toString p)

/-- Model of `_prefix_to_netmask` (src/main.py lines 175-178); faithful
for 0 ≤ prefix_len ≤ 32, the range its caller supplies. -/
def prefix_to_netmask (prefix_len : Nat) : String :=
  let mask : Nat := (0xffffffff >>> (32 - prefix_len)) <<< (32 - prefix_len)
  toString (mask / 2 ^ 24 % 256) ++ "." ++ toString (mask / 2 ^ 16 % 256) ++ "."
    ++ toString (mask / 2 ^ 8 % 256) ++ "." ++ toString (mask % 256)

/-- Digit value in base `b`, `none` if the character is not a digit of that base. -/
def baseDigit (b : Nat) (c : Char) : Option Nat :=
  let v :=
    if c.isDigit then some (c.toNat - 48)
    else if 'a' ≤ c ∧ c ≤ 'f' then some (c.toNat - 87)
    else if 'A' ≤ c ∧ c ≤ 'F' then some (c.toNat - 55)
    else none
  match v with
  | some v => if v < b then some v else none
  | none => none

/-- Numeral of base `b`: non-empty, all digits of that base. -/
def parseBase (b : Nat) (l : List Char) : Option Nat :=
  if l = [] then none
  else l.foldlM (fun a c => (baseDigit b c).map (fun v => a * b + v)) 0

/-- Model of the C `inet_aton` numeral syntax used by `socket.inet_aton`:
leading `0x` means hexadecimal, a leading zero means octal, otherwise
decimal. -/
def catoul (l : List Char) : Option Nat :=
  match l with
  | '0' :: 'x' :: rest => parseBase 16 rest
  | '0' :: 'X' :: rest => parseBase 16 rest
  | '0' :: rest => if rest = [] then some 0 else parseBase 8 rest
  | _ => parseBase 10 l

/-- Model of `socket.inet_aton`: up to four dot-separated numerals with
the classic part bounds, packed big-endian into one 32-bit value. -/
def inet_aton (s : String) : Option Nat :=
  match mapMOpt (fun p => catoul p.toList) (pySplit '.' s) with
  | none => none
  | some [a] => if a < 2 ^ 32 then some a else none
  | some [a, b] => if a ≤ 255 ∧ b < 2 ^ 24 then some (a * 2 ^ 24 + b) else none
  | some [a, b, c] =>
      if a ≤ 255 ∧ b ≤ 255 ∧ c < 2 ^ 16 then some ((a * 256 + b) * 2 ^ 16 + c) else none
  | some [a, b, c, d] =>
      if a ≤ 255 ∧ b ≤ 255 ∧ c ≤ 255 ∧ d ≤ 255 then
        some (((a * 256 + b) * 256 + c) * 256 + d)
      else none
  | some _ => none

/-- Shadowed first `_calculate_cidr` (src/main.py lines 472-485): pack
the netmask with `socket.inet_aton`, count the 1 bits of the 32-bit
value, and on any error fall back to prefix length 24. -/
def calculate_cidr_first (ip_address netmask : String) : String :=
  match inet_aton netmask with
  | some n => ip_address ++ "/" ++ toString (popcount n)
  | none => ip_address ++ "/24"

/-- Canonical decimal octet: the text of some value 0..255, with no
sign, whitespace, or leading zeros. -/
def canonicalOctet (s : String) : Bool :=
  (List.range 256).any (fun v => s == toString v)

/-- Well-formed dotted-quad netmask: exactly four canonical octets. -/
def wellFormedDottedQuad (s : String) : Bool :=
  match pySplit '.' s with
  | [a, b, c, d] => canonicalOctet a && canonicalOctet b && canonicalOctet c && canonicalOctet d
  | _ => false

/-! ## InterfaceNameClassifier: `_is_public_network_interface`
(src/main.py lines 84-106).  Each anchored regular expression of the
source is modelled by a dedicated matcher with Python `re` semantics:
`$` matches at the end of the string or just before one final newline,
and `\d` matches any Unicode decimal digit (category Nd). -/

/-- Consume a literal keyword at the head of a character list. -/
def dropLit : List Char → List Char → Option (List Char)
  | [], l => some l
  | _ :: _, [] => none
  | k :: ks, c :: cs => if c = k then dropLit ks cs else none

/-- Decimal-digit (general category Nd) code-point ranges of the
Unicode database, inclusive, as CPython 3.11 matches for `\d` on `str`
patterns. -/
def ndDigitRanges : List (Nat × Nat) :=
  [(48, 57), (1632, 1641), (1776, 1785), (1984, 1993), (2406, 2415), (2534, 2543),
   (2662, 2671), (2790, 2799), (2918, 2927), (3046, 3055), (3174, 3183), (3302, 3311),
   (3430, 3439), (3558, 3567), (3664, 3673), (3792, 3801), (3872, 3881), (4160, 4169),
   (4240, 4249), (6112, 6121), (6160, 6169), (6470, 6479), (6608, 6617), (6784, 6793),
   (6800, 6809), (6992, 7001), (7088, 7097), (7232, 7241), (7248, 7257), (42528, 42537),
   (43216, 43225), (43264, 43273), (43472, 43481), (43504, 43513), (43600, 43609),
   (44016, 44025), (65296, 65305), (66720, 66729), (68912, 68921), (69734, 69743),
   (69872, 69881), (69942, 69951), (70096, 70105), (70384, 70393), (70736, 70745),
   (70864, 70873), (71248, 71257), (71360, 71369), (71472, 71481), (71904, 71913),
   (72016, 72025), (72784, 72793), (73040, 73049), (73120, 73129), (92768, 92777),
   (92864, 92873), (93008, 93017), (120782, 120831), (123200, 123209), (123632, 123641),
   (125264, 125273), (130032, 130041)]

/-- The regex class `\d` of Python `re` on text patterns: any Unicode
decimal digit. -/
def isPyRegexDigit (c : Char) : Bool :=
  ndDigitRanges.any (fun r => r.1 ≤ c.toNat && c.toNat ≤ r.2)

/-- The anchor `$` of a Python regular expression (without MULTILINE):
it matches at the end of the string or just before one final newline,
so `eth0` followed by a newline still matches `eth\d+$`. -/
def pyEndAnchor : List Char → Bool
  | [] => true
  | [c] => c = '\n'
  | _ => false

/-- Consume one or more `\d` digits. -/
def digitsThen (l : List Char) : Option (List Char) :=
  let d := l.takeWhile isPyRegexDigit
  if d.isEmpty then none else some (l.dropWhile isPyRegexDigit)

/-- Matcher for an anchored `kw` followed by one or more digits. -/
def matchKwNum (kw : String) (name : String) : Bool :=
  match dropLit kw.toList name.toList with
  | some r =>
    match digitsThen r with
    | some rest => pyEndAnchor rest
    | none => false
  | none => false

/-- Matcher for `kw`, digits, a fixed middle letter, then digits. -/
def matchKwNumMidNum (kw : String) (mid : Char) (name : String) : Bool :=
  match dropLit kw.toList name.toList with
  | some r =>
    match digitsThen r with
    | some (c :: rest) =>
      c = mid &&
        (match digitsThen rest with
         | some rest2 => pyEndAnchor rest2
         | none => false)
    | _ => false
  | none => false

/-- Lowercase hexadecimal digit, the explicit ASCII class `[0-9a-f]`. -/
def isHexLower (c : Char) : Bool :=
  c.isDigit || ('a' ≤ c && c ≤ 'f')

/-- Matcher for the MAC-based `enx` pattern: twelve lowercase hex
digits, then the end anchor. -/
def matchEnxMac (name : String) : Bool :=
  match dropLit "enx".toList name.toList with
  | some r =>
    (r.take 12).length = 12 && (r.take 12).all isHexLower && pyEndAnchor (r.drop 12)
  | none => false

/-- Model of `_is_public_network_interface` (src/main.py lines 84-106):
true exactly when the name matches one of the fixed public-NIC naming
patterns under Python `re.match` semantics. -/
def is_public_network_interface (name : String) : Bool :=
  matchKwNum "eth" name || matchKwNum "ens" name || matchKwNumMidNum "enp" 's' name ||
  matchKwNum "eno" name || matchEnxMac name || matchKwNum "em" name ||
  matchKwNumMidNum "p" 'p' name || matchKwNum "wlan" name ||
  matchKwNumMidNum "wlp" 's' name || matchKwNum "wlo" name ||
  matchKwNumMidNum "wwp" 's' name

/-! ## Netplan document store -/

/-- A netplan default route entry; `dest` models the YAML key named
`to` and `via` the key named `via` (src/main.py lines 280-285). -/
structure NetplanRoute where
  dest : String
  via : String
deriving DecidableEq, Repr

/-- Per-interface settings block inside `network.ethernets`; `none`
means the key is absent from the document. -/
structure NetplanIfaceCfg where
  dhcp4 : Option Bool
  addresses : Option (List String)
  routes : Option (List NetplanRoute)
  nameservers : Option (List String)
deriving DecidableEq, Repr

/-- Parsed content of one netplan YAML file.  `unparsable` models a
file `yaml.safe_load` rejects; `doc eths` models a parsed document with
interface map `eths` (a falsy document or one without a `network` key
behaves in every modelled operation exactly like `doc []`, and is
identified with it). -/
inductive NPContent where
  | unparsable : NPContent
  | doc : List (String × NetplanIfaceCfg) → NPContent
deriving DecidableEq, Repr

/-- The netplan directory: (path, content) pairs with distinct paths. -/
abbrev NetplanStore := List (String × NPContent)

/-- Does an interface map contain the interface? (`interface_name in ethernets`). -/
def hasIface (i : String) (eths : List (String × NetplanIfaceCfg)) : Bool :=
  eths.any (fun e => e.1 == i)

/-- Delete the interface from the map (`del ethernets[interface_name]`);
YAML mappings have unique keys, so filtering equals single deletion. -/
def delIface (i : String) (eths : List (String × NetplanIfaceCfg)) :
    List (String × NetplanIfaceCfg) :=
  eths.filter (fun e => e.1 ≠ i)

/-- Does a file content define the interface? -/
def definesIface (i : String) : NPContent → Bool
  | .unparsable => false
  | .doc eths => hasIface i eths

/-- Per-file step of `_cleanup_netplan_files` (src/main.py lines
337-368): `none` models deleting the file (`config_file.unlink()`),
`some c` keeping it with content `c`.  An unparsable file raises in the
read, which the per-file `except` swallows, leaving the file alone. -/
def cleanupFile (i : String) : NPContent → Option NPContent
  | .unparsable => some .unparsable
  | .doc eths =>
    if hasIface i eths then
      if eths.length = 1 then none
      else
        let eths2 := delIface i eths
        if eths2.isEmpty then none
        else some (.doc eths2)
    else some (.doc eths)

/-- Model of `_cleanup_netplan_files` (src/main.py lines 329-372):
apply the per-file step to every YAML file of the store. -/
def cleanup_netplan_files (i : String) (store : NetplanStore) : NetplanStore :=
  store.filterMap (fun f => (cleanupFile i f.2).map (fun c => (f.1, c)))

/-- Model of `open(path, w)` on the store: truncate the named file if
present, create it otherwise. -/
def writeStore (store : NetplanStore) (path : String) (c : NPContent) : NetplanStore :=
  if store.any (fun f => f.1 == path) then
    store.map (fun f => if f.1 == path then (path, c) else f)
  else store ++ [(path, c)]

/-! ## Desired configuration payload and Python truthiness -/

/-- The `NetworkConfig` request model (src/main.py lines 48-53 and
src/models/network_models.py). -/
structure NetCfg where
  ip_address : String
  netmask : String
  gateway : Option String
  dns_servers : Option (List String)
  is_dhcp : Bool
deriving DecidableEq, Repr

/-- Python truthiness of an optional string (`if config.gateway:`):
absent or empty is falsy. -/
def truthyStr : Option String → Option String
  | some s => if s = "" then none else some s
  | none => none

/-- Python truthiness of an optional list (`if config.dns_servers:`):
absent or empty is falsy. -/
def truthyList : Option (List String) → Option (List String)
  | some l => if l = [] then none else some l
  | none => none

/-- The per-interface settings block `_configure_netplan` builds
(src/main.py lines 262-290): for DHCP only `dhcp4: true`; otherwise the
CIDR address, a default route when a gateway is given, and nameservers
when DNS servers are given.  `none` models the uncaught error of
`_calculate_cidr` on a bad netmask. -/
def buildNetplanIfaceCfg (config : NetCfg) : Option NetplanIfaceCfg :=
  if config.is_dhcp then some ⟨some true, none, none, none⟩
  else
    (calculate_cidr config.ip_address config.netmask).map (fun cidr =>
      ⟨none, some [cidr],
        (truthyStr config.gateway).map (fun g => [⟨"default", g⟩]),
        truthyList config.dns_servers⟩)

/-! ## External commands, world state -/

/-- Outcome of spawning one external command: success, non-zero exit
(`CalledProcessError` under `check=True`), or missing executable
(`FileNotFoundError`). -/
inductive CmdResult where
  | ok : CmdResult
  | fail : CmdResult
  | notFound : CmdResult
deriving DecidableEq, Repr

/-- Environment oracle: what each command invocation would do, and the
interface names the `ip -j addr show` inventory would report (`none`
models that inventory command failing). -/
structure ExecEnv where
  exec : List String → CmdResult
  inventory : Option (List String)

/-- Python exceptions distinguished by the engine's `except` clauses. -/
inductive PyExc where
  | calledProcessError : PyExc
  | fileNotFound : PyExc
  | valueError : PyExc
deriving DecidableEq, Repr

/-- Mutable host state the engine touches: the netplan store, the
legacy interfaces file, the resolver configuration (as lines), and the
trace of every external command spawned. -/
structure World where
  netplan : NetplanStore
  interfacesFile : Option String
  resolv : List String
  trace : List (List String)
deriving DecidableEq, Repr

/-- Spawn one command: record it in the trace and consult the oracle. -/
def runW (env : ExecEnv) (cmd : List String) (w : World) : CmdResult × World :=
  (env.exec cmd, { w with trace := w.trace ++ [cmd] })

/-- Result of a caller-visible operation: normal return, 400-style
client error, 404, 500, or an exception escaping every handler. -/
inductive Outcome where
  | success : Outcome
  | clientError : Outcome
  | notFound : Outcome
  | serverError : Outcome
  | raised : Outcome
deriving DecidableEq, Repr

/-- Model of Python `str.rstrip`. -/
def pyRstrip (s : String) : String :=
  String.mk (s.toList.reverse.dropWhile pyWs).reverse

/-- Model of `_update_dns_servers` (src/main.py lines 447-470): keep
the non-`nameserver` lines of the resolver file and append one
`nameserver` line per server.  Its own broad `except` means it never
raises. -/
def update_dns_servers (dns_servers : List String) (w : World) : World :=
  let kept := (w.resolv.filter (fun l => !(pyStartsWith (pyStrip l) "nameserver"))).map pyRstrip
  { w with resolv := kept ++ dns_servers.map (fun d => "nameserver " ++ d) }

/-- Model of `_apply_ip_directly` (src/main.py lines 394-445).  Returns
the final world plus the exception escaping the method, if any: its
outer handler catches only `CalledProcessError` (which it re-raises
after logging), so a missing executable surfaces as `FileNotFoundError`
and a bad netmask as `ValueError`. -/
def apply_ip_directly (env : ExecEnv) (i : String) (config : NetCfg) (w : World) :
    World × Option PyExc :=
  let (r0, w) := runW env ["ip", "link", "set", "dev", i, "up"] w
  if r0 = .notFound then (w, some .fileNotFound)
  else if config.is_dhcp then
    let (r1, w) := runW env ["ip", "addr", "flush", "dev", i] w
    if r1 = .notFound then (w, none)
    else
      let (_, w) := runW env ["dhclient", i] w
      (w, none)
  else
    match calculate_cidr config.ip_address config.netmask with
    | none => (w, some .valueError)
    | some cidr =>
      let (r1, w) := runW env ["ip", "addr", "flush", "dev", i] w
      if r1 = .notFound then (w, some .fileNotFound)
      else
        let (r2, w) := runW env ["ip", "addr", "add", cidr, "dev", i] w
        match r2 with
        | .notFound => (w, some .fileNotFound)
        | .fail => (w, some .calledProcessError)
        | .ok =>
          match truthyStr config.gateway with
          | some g =>
            let (r3, w) := runW env ["ip", "route", "del", "default", "dev", i] w
            if r3 = .notFound then (w, some PyExc.fileNotFound)
            else
              let (r4, w) := runW env ["ip", "route", "add", "default", "via", g, "dev", i] w
              if r4 = .notFound then (w, some PyExc.fileNotFound)
              else
                match truthyList config.dns_servers with
                | none => (w, none)
                | some ds => (update_dns_servers ds w, none)
          | none =>
            match truthyList config.dns_servers with
            | none => (w, none)
            | some ds => (update_dns_servers ds w, none)

/-- Model of `_configure_netplan` (src/main.py lines 256-327): clean up
prior definitions, write the fresh single-interface document, validate
it (`netplan info`), then activate — in a container `netplan generate`
followed by the direct applier, on a host `netplan apply` with the
direct applier as fallback.  Any exception reaching the outer handler
becomes an HTTP 500. -/
def configure_netplan (env : ExecEnv) (is_container : Bool) (i : String) (config : NetCfg)
    (w : World) : World × Outcome :=
  let w := { w with netplan := cleanup_netplan_files i w.netplan }
  match buildNetplanIfaceCfg config with
  | none => (w, .serverError)
  | some s =>
    let fname := "/etc/netplan/01-" ++ i ++ ".yaml"
    let w := { w with netplan := writeStore w.netplan fname (.doc [(i, s)]) }
    let (_, w) := runW env ["netplan", "info", fname] w
    if is_container then
      let (r, w) := runW env ["netplan", "generate"] w
      match r with
      | .ok =>
        let (w, e) := apply_ip_directly env i config w
        match e with
        | none => (w, .success)
        | some .valueError => (w, .serverError)
        | some _ =>
          let (w, e2) := apply_ip_directly env i config w
          (w, if e2.isNone then .success else .serverError)
      | _ =>
        let (w, e) := apply_ip_directly env i config w
        (w, if e.isNone then .success else .serverError)
    else
      let (r, w) := runW env ["netplan", "apply"] w
      match r with
      | .ok => (w, .success)
      | _ =>
        let (w, e) := apply_ip_directly env i config w
        (w, if e.isNone then .success else .serverError)

/-! ## LegacyInterfaces backend: `_configure_interfaces`
(src/main.py lines 487-545) and its stanza-removal regular expression. -/

/-- Word character of the regex class `\w` (ASCII fragment). -/
def isWordChar (c : Char) : Bool :=
  c.isAlphanum || c = '_'

/-- Does `kw` followed by whitespace and a word character match at the
head of the list?  Used for the lookahead alternatives `auto\s+\w+` and
`iface\s+\w+`. -/
def headKwWsWord (kw : String) (l : List Char) : Bool :=
  match dropLit kw.toList l with
  | some r =>
    let rest := r.dropWhile pyWs
    !(r.takeWhile pyWs).isEmpty &&
      (match rest with
       | c :: _ => isWordChar c
       | [] => false)
  | none => false

/-- The lookahead `(?=auto\s+\w+|iface\s+\w+|\Z)` of the stanza-removal
pattern. -/
def stanzaLookahead (l : List Char) : Bool :=
  headKwWsWord "auto" l || headKwWsWord "iface" l || l.isEmpty

/-- Advance the non-greedy `.*?` (DOTALL) to the first position whose
suffix satisfies the lookahead; `\Z` guarantees one exists. -/
def scanToLookahead : List Char → List Char
  | [] => []
  | l@(_ :: rest) => if stanzaLookahead l then l else scanToLookahead rest

/-- Try the possible `\s+` widths, widest first (greedy with
backtracking), requiring the interface name right after. -/
def tryWsSplits (iname r : List Char) : Nat → Option (List Char)
  | 0 => none
  | k + 1 =>
    if iname.isPrefixOf (r.drop (k + 1)) then
      some (scanToLookahead ((r.drop (k + 1)).drop iname.length))
    else tryWsSplits iname r k

/-- Match `auto\s+<iname>.*?(?=auto\s+\w+|iface\s+\w+|\Z)` at the head
of the list, returning the suffix after the match.  The interface name
is taken literally, as it is for the guard-approved names that reach
this code. -/
def matchAutoStanza (iname l : List Char) : Option (List Char) :=
  match dropLit "auto".toList l with
  | none => none
  | some r => tryWsSplits iname r (r.takeWhile pyWs).length

/-- Leftmost, non-overlapping deletion of every stanza match, as
`re.sub(pattern, e, content)` performs with an empty replacement; the
fuel is an upper bound on the scanning steps and never runs out. -/
def reSubAux (iname : List Char) : Nat → List Char → List Char
  | 0, l => l
  | _ + 1, [] => []
  | fuel + 1, c :: rest =>
    match matchAutoStanza iname (c :: rest) with
    | some after => reSubAux iname fuel after
    | none => c :: reSubAux iname fuel rest

/-- Model of the `re.sub` call of `_configure_interfaces`
(src/main.py lines 498-500) that removes the previous stanza of the
interface. -/
def removeIfaceStanza (iname : String) (content : String) : String :=
  String.mk (reSubAux iname.toList (content.toList.length + 1) content.toList)

/-- The fresh stanza `_configure_interfaces` appends
(src/main.py lines 502-516). -/
def buildInterfacesStanza (i : String) (config : NetCfg) : String :=
  let nc := "\nauto " ++ i ++ "\n"
  if config.is_dhcp then nc ++ "iface " ++ i ++ " inet dhcp\n"
  else
    let nc := nc ++ "iface " ++ i ++ " inet static\n" ++
      "    address " ++ config.ip_address ++ "\n" ++
      "    netmask " ++ config.netmask ++ "\n"
    let nc :=
      match truthyStr config.gateway with
      | some g => nc ++ "    gateway " ++ g ++ "\n"
      | none => nc
    match truthyList config.dns_servers with
    | some ds => nc ++ "    dns-nameservers " ++ joinWith " " ds ++ "\n"
    | none => nc

/-- The `ip link set down/up` fallback inside `_configure_interfaces`
(src/main.py lines 530-534): its handler catches only
`CalledProcessError`, so a missing `ip` tool escapes. -/
def linkCycleFallback (env : ExecEnv) (i : String) (w : World) : World × Option PyExc :=
  let (r3, w) := runW env ["ip", "link", "set", "dev", i, "down"] w
  if r3 = .notFound then (w, some .fileNotFound)
  else
    let (r4, w) := runW env ["ip", "link", "set", "dev", i, "up"] w
    if r4 = .notFound then (w, some .fileNotFound) else (w, none)

/-- Model of `_configure_interfaces` (src/main.py lines 487-545):
rewrite the legacy interfaces file (regex removal plus fresh stanza),
try `ifdown`/`ifup` with the link-cycle fallback, then always run the
direct applier with every exception swallowed. -/
def configure_interfaces (env : ExecEnv) (i : String) (config : NetCfg) (w : World) :
    World × Outcome :=
  let content := w.interfacesFile.getD ""
  let content := removeIfaceStanza i content ++ buildInterfacesStanza i config
  let w := { w with interfacesFile := some content }
  let (r1, w) := runW env ["ifdown", i] w
  let (w, esc) :=
    if r1 = .notFound then linkCycleFallback env i w
    else
      let (r2, w) := runW env ["ifup", i] w
      match r2 with
      | .ok => (w, none)
      | _ => linkCycleFallback env i w
  match esc with
  | some _ => (w, Outcome.serverError)
  | none =>
    let (w, _) := apply_ip_directly env i config w
    (w, Outcome.success)

/-- Model of `configure_interface` (src/main.py lines 244-254):
dispatch on the detected configuration type; unsupported kinds are
rejected with a 400. -/
def configure_interface (env : ExecEnv) (config_type : String) (is_container : Bool)
    (i : String) (config : NetCfg) (w : World) : World × Outcome :=
  if config_type == "netplan" then configure_netplan env is_container i config w
  else if config_type == "interfaces" then configure_interfaces env i config w
  else (w, .clientError)

/-! ## HTTP endpoints (mutating ones; src/main.py lines 809-838 and
1003-1208).  Each is modelled as a state transformer returning the new
world and the response class. -/

/-- Names `get_interfaces` (src/main.py lines 128-173) reports: the
inventory filtered to public interfaces; `none` models the inventory
command raising (HTTP 500). -/
def interfaces_names (env : ExecEnv) : Option (List String) :=
  env.inventory.map (List.filter is_public_network_interface)

/-- Model of the `POST /network/interfaces/name/configure` endpoint
(src/main.py lines 1003-1029). -/
def configure_interface_endpoint (env : ExecEnv) (config_type : String) (is_container : Bool)
    (name : String) (config : NetCfg) (w : World) : World × Outcome :=
  if is_public_network_interface name = false then (w, .clientError)
  else
    match interfaces_names env with
    | none => (w, .serverError)
    | some names =>
      if names.contains name = false then (w, .notFound)
      else configure_interface env config_type is_container name config w

/-- The `ip link set down` plus `ip link set up` fallback of the
restart endpoint (src/main.py lines 1062-1064 and analogues): `up` is
checked, and only `CalledProcessError` is caught by the endpoint. -/
def restartFallback (env : ExecEnv) (name : String) (w : World) : World × Outcome :=
  let (r1, w) := runW env ["ip", "link", "set", "dev", name, "down"] w
  if r1 = .notFound then (w, .raised)
  else
    let (r2, w) := runW env ["ip", "link", "set", "dev", name, "up"] w
    match r2 with
    | .ok => (w, .success)
    | .fail => (w, .serverError)
    | .notFound => (w, .raised)

/-- Model of the `POST /network/interfaces/name/restart` endpoint
(src/main.py lines 1031-1099). -/
def restart_interface_endpoint (env : ExecEnv) (config_type : String) (is_container : Bool)
    (name : String) (w : World) : World × Outcome :=
  if is_public_network_interface name = false then (w, .clientError)
  else if config_type == "netplan" then
    let (r1, w) := runW env ["ip", "link", "set", "dev", name, "down"] w
    match r1 with
    | .ok =>
      if is_container = false then
        let (r2, w) := runW env ["netplan", "apply"] w
        match r2 with
        | .ok =>
          let (r3, w) := runW env ["ip", "link", "set", "dev", name, "up"] w
          match r3 with
          | .ok => (w, .success)
          | _ => restartFallback env name w
        | _ => restartFallback env name w
      else
        let (_, w) := runW env ["netplan", "generate"] w
        let (r3, w) := runW env ["ip", "link", "set", "dev", name, "up"] w
        match r3 with
        | .ok => (w, .success)
        | _ => restartFallback env name w
    | _ => restartFallback env name w
  else if config_type == "interfaces" then
    let (r1, w) := runW env ["ifdown", name] w
    if r1 = .notFound then restartFallback env name w
    else
      let (r2, w) := runW env ["ifup", name] w
      match r2 with
      | .ok => (w, .success)
      | _ => restartFallback env name w
  else if config_type == "networkmanager" then
    let (r1, w) := runW env ["nmcli", "connection", "down", name] w
    if r1 = .notFound then restartFallback env name w
    else
      let (r2, w) := runW env ["nmcli", "connection", "up", name] w
      match r2 with
      | .ok => (w, .success)
      | _ => restartFallback env name w
  else
    let (r1, w) := runW env ["ip", "link", "set", "dev", name, "down"] w
    if r1 = .notFound then (w, .raised)
    else
      let (r2, w) := runW env ["ip", "link", "set", "dev", name, "up"] w
      match r2 with
      | .ok => (w, .success)
      | .fail => (w, .serverError)
      | .notFound => (w, .raised)

/-- Model of the `POST /network/interfaces/name/enable` endpoint
(src/main.py lines 1158-1186). -/
def enable_interface_endpoint (env : ExecEnv) (config_type : String) (name : String)
    (w : World) : World × Outcome :=
  if is_public_network_interface name = false then (w, .clientError)
  else
    let (r1, w) := runW env ["ip", "link", "set", "dev", name, "up"] w
    match r1 with
    | .fail => (w, .serverError)
    | .notFound => (w, .raised)
    | .ok =>
      if config_type == "netplan" then
        let (_, w) := runW env ["netplan", "apply"] w
        (w, .success)
      else (w, .success)

/-- Model of the `POST /network/interfaces/name/disable` endpoint
(src/main.py lines 1188-1208). -/
def disable_interface_endpoint (env : ExecEnv) (name : String) (w : World) :
    World × Outcome :=
  if is_public_network_interface name = false then (w, .clientError)
  else
    let (r1, w) := runW env ["ip", "link", "set", "dev", name, "down"] w
    match r1 with
    | .ok => (w, .success)
    | .fail => (w, .serverError)
    | .notFound => (w, .raised)

/-- Model of the `DELETE /network/netplan/cleanup/name` endpoint
(src/main.py lines 809-838). -/
def cleanup_netplan_interface_endpoint (env : ExecEnv) (name : String) (w : World) :
    World × Outcome :=
  if is_public_network_interface name = false then (w, .clientError)
  else
    match interfaces_names env with
    | none => (w, .serverError)
    | some names =>
      if names.contains name = false then (w, .notFound)
      else ({ w with netplan := cleanup_netplan_files name w.netplan }, .success)

/-! ## HostnameStore: `get_hostname` (src/main.py lines 555-575) and
`_update_hosts_file` (src/main.py lines 609-651). -/

/-- Outcome of one hostname-tool invocation. -/
inductive ToolRun where
  | out : String → ToolRun
  | errExit : ToolRun
  | absent : ToolRun
deriving DecidableEq, Repr

/-- State of a file for the read-only fallbacks. -/
inductive FileState where
  | readable : String → FileState
  | missing : FileState
  | unreadable : FileState
deriving DecidableEq, Repr

/-- Environment of the hostname queries. -/
structure HostnameEnv where
  hostnamectl : ToolRun
  hostname : ToolRun
  etcHostname : FileState
deriving DecidableEq, Repr

/-- Model of `get_hostname` (src/main.py lines 555-575).  The first
fallback catches `CalledProcessError` and `FileNotFoundError`; the
second catches only `CalledProcessError`, so an absent `hostname` tool
raises `FileNotFoundError` to the caller.  The file fallback has a
broad handler and never raises. -/
def get_hostname (e : HostnameEnv) : Except PyExc String :=
  match e.hostnamectl with
  | .out s => .ok (pyStrip s)
  | _ =>
    match e.hostname with
    | .out s => .ok (pyStrip s)
    | .errExit =>
      match e.etcHostname with
      | .readable s => .ok (pyStrip s)
      | .missing => .ok "unknown"
      | .unreadable => .ok "unknown"
    | .absent => .error .fileNotFound

/-- Is a hosts-file line the loopback-alias line, i.e. does its
stripped form start with the alias address (src/main.py line 623)? -/
def isAliasLine (line : String) : Bool :=
  pyStartsWith (pyStrip line) "127.0.1.1"

/-- One iteration of the hosts-rewrite loop of `_update_hosts_file`
(src/main.py lines 622-630), with the accumulated kept lines and the
`hostname_updated` flag. -/
def hostsStep (h : String) (acc : List String × Bool) (line : String) : List String × Bool :=
  if isAliasLine line then (acc.1 ++ ["127.0.1.1\t" ++ h], true)
  else if !(pyStartsWith (pyStrip line) "127.0.0.1" && pyContains line "localhost") then
    if !(pyContains line "127.0.1.1") then (acc.1 ++ [line], acc.2) else acc
  else acc

/-- The line list `_update_hosts_file` writes, given the line list of
the existing hosts file (src/main.py lines 618-639): rewrite the loop's
lines, append an alias line when none was rewritten, and prepend a
localhost line when none survives. -/
def update_hosts_lines (h : String) (lines : List String) : List String :=
  let nl := lines.foldl (hostsStep h) ([], false)
  let nl2 := if nl.2 then nl.1 else nl.1 ++ ["127.0.1.1\t" ++ h]
  if nl2.any (fun l => pyContains l "127.0.0.1" && pyContains l "localhost") then nl2
  else "127.0.0.1\tlocalhost" :: nl2

/-- Model of `_update_hosts_file` on an existing hosts file
(src/main.py lines 613-642): the file content written back. -/
def update_hosts_file (h : String) (content : String) : String :=
  joinWith "\n" (update_hosts_lines h (splitlines content)) ++ "\n"

/-! ## Byte-level view of the netplan rewrite.  `_cleanup_netplan_files`
rewrites a file by `yaml.safe_load` followed by `yaml.dump(config, f,
default_flow_style=False)` (src/main.py lines 339-362), so the bytes it
writes are a re-serialization of the parsed document, not an edit of
the original bytes.  The two functions below model that round trip on
the subset needed to exhibit this. -/

/-- Remove a YAML comment from a line: a `#` at the start of the line
or preceded by whitespace starts a comment running to the end of the
line (the modelled subset has no quoted scalars). -/
def stripYamlCommentAux : Char → List Char → List Char
  | _, [] => []
  | prev, c :: rest =>
    if c = '#' && (prev = ' ' || prev = '\t') then []
    else c :: stripYamlCommentAux c rest

/-- Comment removal for a whole line. -/
def stripYamlComment : List Char → List Char
  | [] => []
  | '#' :: _ => []
  | c :: rest => c :: stripYamlCommentAux c rest

/-- Lines of a YAML document with comments removed, right-stripped and
blank lines dropped — the content `yaml.safe_load` actually reads. -/
def cleanedYamlLines (text : String) : List String :=
  ((splitlines text).map (fun l => pyRstrip (String.mk (stripYamlComment l.toList)))).filter
    (fun l => l ≠ "")

/-- Header line of one interface block: four spaces, a plain name, a
colon. -/
def parseIfaceHeader (l : String) : Option String :=
  match dropLit "    ".toList l.toList with
  | some r =>
    if r.getLast? = some ':' && r.dropLast ≠ []
        && r.dropLast.all (fun c => c ≠ ' ' && c ≠ ':') then
      some (String.mk r.dropLast)
    else none
  | none => none

/-- Field line `dhcp4: <bool>` of one interface block. -/
def parseDhcpLine (l : String) : Option Bool :=
  match dropLit "      dhcp4: ".toList l.toList with
  | some r =>
    if String.mk r = "true" then some true
    else if String.mk r = "false" then some false
    else none
  | none => none

/-- Interface blocks followed by the trailing `version: 2` key of a
canonically ordered document. -/
def parseEthernetsTail : List String → Option (List (String × NetplanIfaceCfg))
  | ["  version: 2"] => some []
  | l1 :: l2 :: rest =>
    match parseIfaceHeader l1, parseDhcpLine l2 with
    | some name, some b =>
      (parseEthernetsTail rest).map (fun t => (name, ⟨some b, none, none, none⟩) :: t)
    | _, _ => none
  | _ => none

/-- Modelled from the library on the subset the counterexample needs: a
model of `yaml.safe_load` followed by the
`config["network"]["ethernets"]` access of `_cleanup_netplan_files`,
restricted to canonically indented netplan documents whose interfaces
carry only a `dhcp4` flag, with arbitrary YAML comments.  Documents
outside this subset are simply not modelled (`none`). -/
def yamlParseEthernets (text : String) : Option (List (String × NetplanIfaceCfg)) :=
  match cleanedYamlLines text with
  | "network:" :: "  ethernets:" :: rest => parseEthernetsTail rest
  | _ => none

/-- Boolean scalar as `yaml.dump` renders it. -/
def boolYaml (b : Bool) : String :=
  if b then "true" else "false"

/-- Insert one interface entry into a name-sorted list; `yaml.dump`
renders mapping keys alphabetically (`sort_keys` default). -/
def insertIfaceSorted (e : String × NetplanIfaceCfg) :
    List (String × NetplanIfaceCfg) → List (String × NetplanIfaceCfg)
  | [] => [e]
  | f :: rest => if e.1 ≤ f.1 then e :: f :: rest else f :: insertIfaceSorted e rest

/-- Name-sort the interface entries for serialization. -/
def sortIfaces : List (String × NetplanIfaceCfg) → List (String × NetplanIfaceCfg)
  | [] => []
  | e :: rest => insertIfaceSorted e (sortIfaces rest)

/-- One interface block as `yaml.dump(..., default_flow_style=False)`
renders it: two-space indents, keys in alphabetical order, indentless
sequences under their key. -/
def yamlDumpIfaceCfg (name : String) (c : NetplanIfaceCfg) : String :=
  "    " ++ name ++ ":\n"
    ++ (match c.addresses with
        | some l => "      addresses:\n"
            ++ String.join (l.map (fun a => "      - " ++ a ++ "\n"))
        | none => "")
    ++ (match c.dhcp4 with
        | some b => "      dhcp4: " ++ boolYaml b ++ "\n"
        | none => "")
    ++ (match c.nameservers with
        | some l => "      nameservers:\n        addresses:\n"
            ++ String.join (l.map (fun a => "        - " ++ a ++ "\n"))
        | none => "")
    ++ (match c.routes with
        | some l => "      routes:\n"
            ++ String.join (l.map (fun r =>
                "      - to: " ++ r.dest ++ "\n        via: " ++ r.via ++ "\n"))
        | none => "")

/-- Modelled from the library: the file text `yaml.dump(config, f,
default_flow_style=False)` writes back for a parsed netplan document of
the canonical shape `{network: {ethernets: ..., version: 2}}` — block
style, keys sorted, and necessarily without any comment of the original
file. -/
def yamlDumpNetwork (eths : List (String × NetplanIfaceCfg)) : String :=
  "network:\n  ethernets:\n"
    ++ String.join ((sortIfaces eths).map (fun e => yamlDumpIfaceCfg e.1 e.2))
    ++ "  version: 2\n"

/-! ## Supporting lemmas -/

set_option maxRecDepth 10000

theorem popcountAux_fuel_irrelevant :
    ∀ n f g, n ≤ f → n ≤ g → popcountAux f n = popcountAux g n := by
  intro n
  induction n using Nat.strong_induction_on with
  | _ n ih =>
    intro f g hf hg
    match n, f, g with
    | 0, 0, 0 => rfl
    | 0, 0, _ + 1 => rfl
    | 0, _ + 1, 0 => rfl
    | 0, _ + 1, _ + 1 => rfl
    | m + 1, f + 1, g + 1 =>
      show (m + 1) % 2 + popcountAux f ((m + 1) / 2)
          = (m + 1) % 2 + popcountAux g ((m + 1) / 2)
      have hlt : (m + 1) / 2 < m + 1 := Nat.div_lt_self (Nat.succ_pos m) (by omega)
      rw [ih ((m + 1) / 2) hlt f ((m + 1) / 2) (by omega) (le_refl _),
        ih ((m + 1) / 2) hlt g ((m + 1) / 2) (by omega) (le_refl _)]

theorem popcount_zero : popcount 0 = 0 := rfl

theorem popcount_bit_split (n : Nat) : popcount n = n % 2 + popcount (n / 2) := by
  match n with
  | 0 => rfl
  | m + 1 =>
    have hlt : (m + 1) / 2 < m + 1 := Nat.div_lt_self (Nat.succ_pos m) (by omega)
    show (m + 1) % 2 + popcountAux m ((m + 1) / 2)
        = (m + 1) % 2 + popcountAux ((m + 1) / 2) ((m + 1) / 2)
    rw [popcountAux_fuel_irrelevant ((m + 1) / 2) m ((m + 1) / 2) (by omega) (le_refl _)]

/-- Bits of the low `k`-bit block and of the rest count independently. -/
theorem popcount_mul_pow_add (k : Nat) :
    ∀ a b, b < 2 ^ k → popcount (a * 2 ^ k + b) = popcount a + popcount b := by
  induction k with
  | zero =>
    intro a b hb
    have hb0 : b = 0 := by omega
    subst hb0
    simp [popcount_zero]
  | succ k ih =>
    intro a b hb
    have hsplit : a * 2 ^ (k + 1) + b = 2 * (a * 2 ^ k) + b := by ring
    have hmod : (a * 2 ^ (k + 1) + b) % 2 = b % 2 := by
      rw [hsplit, Nat.mul_add_mod]
    have hdiv : (a * 2 ^ (k + 1) + b) / 2 = a * 2 ^ k + b / 2 := by
      rw [hsplit, Nat.mul_add_div (by norm_num)]
    have hb2 : b / 2 < 2 ^ k := by
      have : 2 ^ (k + 1) = 2 ^ k * 2 := by ring
      omega
    calc popcount (a * 2 ^ (k + 1) + b)
        = (a * 2 ^ (k + 1) + b) % 2 + popcount ((a * 2 ^ (k + 1) + b) / 2) :=
          popcount_bit_split _
      _ = b % 2 + popcount (a * 2 ^ k + b / 2) := by rw [hmod, hdiv]
      _ = b % 2 + (popcount a + popcount (b / 2)) := by rw [ih a (b / 2) hb2]
      _ = popcount a + (b % 2 + popcount (b / 2)) := by omega
      _ = popcount a + popcount b := by rw [← popcount_bit_split]

/-! ## Claim C2: the public-interface guard runs first on every
mutating endpoint -/

/-- Claim C2: for every interface name that does not match the
public-interface patterns, each mutating endpoint (configure, restart,
enable, disable, netplan cleanup) answers with a client error and
leaves the world — netplan store, interfaces file, resolver file and
command trace — unchanged. -/
theorem mutating_endpoints_reject_non_public
    (env : ExecEnv) (config_type : String) (is_container : Bool) (name : String)
    (config : NetCfg) (w : World)
    (h : is_public_network_interface name = false) :
    configure_interface_endpoint env config_type is_container name config w
      = (w, .clientError) ∧
    restart_interface_endpoint env config_type is_container name w = (w, .clientError) ∧
    enable_interface_endpoint env config_type name w = (w, .clientError) ∧
    disable_interface_endpoint env name w = (w, .clientError) ∧
    cleanup_netplan_interface_endpoint env name w = (w, .clientError) := by
  unfold configure_interface_endpoint restart_interface_endpoint
    enable_interface_endpoint disable_interface_endpoint cleanup_netplan_interface_endpoint
  simp [h]

/-- Witness for C2 at the concrete non-public name `docker0`. -/
theorem mutating_endpoints_reject_non_public_witness :
    is_public_network_interface "docker0" = false ∧
    configure_interface_endpoint ⟨fun _ => CmdResult.ok, some []⟩ "netplan" true "docker0"
      ⟨"10.0.0.5", "255.255.255.0", none, none, true⟩ ⟨[], none, [], []⟩
      = (⟨[], none, [], []⟩, .clientError) :=
  ⟨by decide,
    (mutating_endpoints_reject_non_public ⟨fun _ => CmdResult.ok, some []⟩ "netplan" true
      "docker0" ⟨"10.0.0.5", "255.255.255.0", none, none, true⟩ ⟨[], none, [], []⟩
      (by decide)).1⟩

/-! ## Claim C5: AddressMath round trip -/

/-- Claim C5: converting any prefix length 0..32 to a dotted-quad
netmask and back yields the same prefix length, and the two concrete
identities of the specification hold. -/
theorem prefix_netmask_round_trip :
    (∀ p : Fin 33, netmask_to_prefix_len (prefix_to_netmask p.val) = some p.val) ∧
    prefix_to_netmask 24 = "255.255.255.0" ∧
    calculate_cidr "192.168.1.10" "255.255.255.0" = some "192.168.1.10/24" := by
  decide

/-! ## Claim C6: DHCP requests persist only the DHCP marker -/

/-- Claim C6: with `is_dhcp` set, the netplan settings block carries
only `dhcp4: true` (no addresses, routes, or nameservers keys), and the
legacy interfaces stanza is exactly the two-line DHCP stanza with no
address, netmask, gateway, or dns-nameservers field. -/
theorem dhcp_config_persists_no_static_fields
    (i : String) (config : NetCfg) (h : config.is_dhcp = true) :
    buildNetplanIfaceCfg config = some ⟨some true, none, none, none⟩ ∧
    buildInterfacesStanza i config
      = "\nauto " ++ i ++ "\n" ++ "iface " ++ i ++ " inet dhcp\n" := by
  unfold buildNetplanIfaceCfg buildInterfacesStanza
  simp [h]

/-- Witness for C6 at a concrete DHCP payload and interface. -/
theorem dhcp_config_persists_no_static_fields_witness :
    buildNetplanIfaceCfg ⟨"10.0.0.5", "255.255.255.0", some "10.0.0.1", some ["8.8.8.8"], true⟩
      = some ⟨some true, none, none, none⟩ ∧
    buildInterfacesStanza "eth0"
        ⟨"10.0.0.5", "255.255.255.0", some "10.0.0.1", some ["8.8.8.8"], true⟩
      = "\nauto " ++ "eth0" ++ "\n" ++ "iface " ++ "eth0" ++ " inet dhcp\n" :=
  dhcp_config_persists_no_static_fields "eth0"
    ⟨"10.0.0.5", "255.255.255.0", some "10.0.0.1", some ["8.8.8.8"], true⟩ rfl

/-! ## Claim C7: containerised netplan configure scenario -/

/-- Claim C7: with the netplan backend and the container flag set,
configuring `eth0` with ip `10.0.0.5`, netmask `255.255.255.0` and
gateway `10.0.0.1` (all external commands succeeding) writes exactly
one netplan document carrying address `10.0.0.5/24` and a default route
via `10.0.0.1`, and the command trace runs `netplan generate` and then
the direct-IP applier commands, with `netplan apply` never invoked. -/
theorem netplan_container_configure_scenario :
    configure_interface ⟨fun _ => CmdResult.ok, some ["eth0"]⟩ "netplan" true "eth0"
        ⟨"10.0.0.5", "255.255.255.0", some "10.0.0.1", none, false⟩ ⟨[], none, [], []⟩
      = (⟨[("/etc/netplan/01-eth0.yaml",
            .doc [("eth0", ⟨none, some ["10.0.0.5/24"], some [⟨"default", "10.0.0.1"⟩], none⟩)])],
          none, [],
          [["netplan", "info", "/etc/netplan/01-eth0.yaml"], ["netplan", "generate"],
           ["ip", "link", "set", "dev", "eth0", "up"], ["ip", "addr", "flush", "dev", "eth0"],
           ["ip", "addr", "add", "10.0.0.5/24", "dev", "eth0"],
           ["ip", "route", "del", "default", "dev", "eth0"],
           ["ip", "route", "add", "default", "via", "10.0.0.1", "dev", "eth0"]]⟩,
         Outcome.success) ∧
    ([["netplan", "info", "/etc/netplan/01-eth0.yaml"], ["netplan", "generate"],
      ["ip", "link", "set", "dev", "eth0", "up"], ["ip", "addr", "flush", "dev", "eth0"],
      ["ip", "addr", "add", "10.0.0.5/24", "dev", "eth0"],
      ["ip", "route", "del", "default", "dev", "eth0"],
      ["ip", "route", "add", "default", "via", "10.0.0.1", "dev", "eth0"]].contains
        ["netplan", "apply"]) = false := by
  decide

/-! ## Claim C8: the hostname read chain can raise -/

/-- Claim C8 is violated by the code: with `hostnamectl` absent and the
plain `hostname` tool also absent, `get_hostname` propagates
`FileNotFoundError` to its caller instead of falling back to the
hostname file — the second fallback catches only `CalledProcessError`.
With a non-zero exit instead, the file fallback does run. -/
theorem get_hostname_raises_when_hostname_tool_absent :
    get_hostname ⟨.absent, .absent, .readable "web-server"⟩ = .error .fileNotFound ∧
    get_hostname ⟨.absent, .errExit, .readable "web-server"⟩ = .ok "web-server" :=
  ⟨rfl, rfl⟩

/-! ## Claim C4: the effective CIDR conversion has no /24 fallback -/

theorem mapMOpt_eq_none {α β : Type} (f : α → Option β) :
    ∀ l : List α, mapMOpt f l = none ↔ ∃ x ∈ l, f x = none := by
  intro l
  induction l with
  | nil => simp [mapMOpt]
  | cons a t ih =>
    cases h : f a with
    | none =>
      simp only [mapMOpt, h]
      constructor
      · intro _
        exact ⟨a, List.mem_cons_self a t, h⟩
      · intro _
        trivial
    | some b =>
      simp only [mapMOpt, h]
      constructor
      · intro hnone
        rcases hrec : mapMOpt f t with _ | v
        · rcases ih.mp hrec with ⟨x, hx, hfx⟩
          exact ⟨x, List.mem_cons_of_mem a hx, hfx⟩
        · rw [hrec] at hnone
          simp at hnone
      · rintro ⟨x, hx, hfx⟩
        rcases List.mem_cons.mp hx with hxa | hxt
        · subst hxa
          rw [hfx] at h
          cases h
        · rw [ih.mpr ⟨x, hxt, hfx⟩]
          rfl

/-- Counterexample to claim C4 as stated: `1.2.3` is not a well-formed
dotted-quad netmask, yet the effective `_calculate_cidr` neither raises
nor returns the documented `/24` default — it returns the 1-bit count
`/4` of the octets it parsed.  (The `/24` fallback lives only in the
shadowed first definition.) -/
theorem calculate_cidr_malformed_counterexample :
    wellFormedDottedQuad "1.2.3" = false ∧
    calculate_cidr "192.168.1.10" "1.2.3" = some "192.168.1.10/4" ∧
    ¬ calculate_cidr "192.168.1.10" "1.2.3" = some "192.168.1.10/24" := by
  decide

/-- Claim C4 amended: the effective `_calculate_cidr` applies no
fallback at all; it raises (returns `none`) exactly when some
dot-separated field of the netmask is not parseable as a Python
integer, and otherwise returns the 1-bit count of the parsed fields. -/
theorem calculate_cidr_error_iff_bad_octet (ip_address netmask : String) :
    calculate_cidr ip_address netmask = none
      ↔ ∃ o ∈ pySplit '.' netmask, pyInt o = none := by
  unfold calculate_cidr netmask_to_prefix_len
  simp only [Option.map_eq_none']
  exact mapMOpt_eq_none pyInt (pySplit '.' netmask)

/-- Witness for the amended C4 at a concrete malformed netmask. -/
theorem calculate_cidr_error_iff_bad_octet_witness :
    calculate_cidr "192.168.1.10" "x.0.0.0" = none :=
  (calculate_cidr_error_iff_bad_octet "192.168.1.10" "x.0.0.0").mpr
    ⟨"x", by decide, by decide⟩

/-! ## String lemmas for the hosts-file rewrite -/

theorem containsSub_of_infix {pat l : List Char} (h : pat <:+: l) :
    containsSub pat l = true := by
  induction l with
  | nil =>
    rcases h with ⟨s, t, hst⟩
    rcases List.append_eq_nil.mp hst with ⟨hs, ht⟩
    rcases List.append_eq_nil.mp hs with ⟨_, hpat⟩
    subst hpat
    rfl
  | cons c rest ih =>
    rcases List.infix_cons_iff.mp h with hpre | hinf
    · unfold containsSub
      rw [List.isPrefixOf_iff_prefix.mpr hpre]
      rfl
    · unfold containsSub
      rw [ih hinf, Bool.or_true]

theorem stripList_infix (l : List Char) : stripList l <:+: l := by
  have h1 : l.dropWhile pyWs <:+ l := List.dropWhile_suffix _
  have h2 : (l.dropWhile pyWs).reverse.dropWhile pyWs <:+ (l.dropWhile pyWs).reverse :=
    List.dropWhile_suffix _
  have h3 : stripList l <+: l.dropWhile pyWs := by
    rw [← List.reverse_suffix]
    unfold stripList
    rw [List.reverse_reverse]
    exact h2
  rcases h3 with ⟨t, ht⟩
  rcases h1 with ⟨s, hs⟩
  exact ⟨s, t, by rw [List.append_assoc, ht, hs]⟩

theorem not_isAliasLine_of_no_contains {line : String}
    (h : pyContains line "127.0.1.1" = false) : isAliasLine line = false := by
  by_contra hne
  have halias : isAliasLine line = true := by
    cases hb : isAliasLine line
    · exact absurd hb hne
    · rfl
  have hpre : "127.0.1.1".toList <+: stripList line.toList :=
    List.isPrefixOf_iff_prefix.mp halias
  have hinf : "127.0.1.1".toList <:+: line.toList := by
    rcases hpre with ⟨t, ht⟩
    rcases stripList_infix line.toList with ⟨s, u, hu⟩
    refine ⟨s, t ++ u, ?_⟩
    calc s ++ "127.0.1.1".toList ++ (t ++ u)
        = s ++ ("127.0.1.1".toList ++ t) ++ u := by simp [List.append_assoc]
      _ = s ++ stripList line.toList ++ u := by rw [ht]
      _ = line.toList := hu
  rw [show pyContains line "127.0.1.1" = containsSub "127.0.1.1".toList line.toList from rfl,
    containsSub_of_infix hinf] at h
  cases h

theorem isAliasLine_of_new (h : String) : isAliasLine ("127.0.1.1\t" ++ h) = true := by
  have hdata : ("127.0.1.1\t" ++ h).toList = "127.0.1.1".toList ++ '\t' :: h.toList := rfl
  show pyStartsWith (pyStrip ("127.0.1.1\t" ++ h)) "127.0.1.1" = true
  unfold pyStartsWith pyStrip
  rw [show (String.mk (stripList ("127.0.1.1\t" ++ h).toList)).toList
      = stripList ("127.0.1.1\t" ++ h).toList from rfl, hdata]
  have hdrop1 : ("127.0.1.1".toList ++ '\t' :: h.toList).dropWhile pyWs
      = "127.0.1.1".toList ++ '\t' :: h.toList := by
    rw [show "127.0.1.1".toList ++ '\t' :: h.toList
        = '1' :: ("27.0.1.1".toList ++ '\t' :: h.toList) from rfl]
    rw [List.dropWhile_cons_of_neg (by decide)]
  unfold stripList
  rw [hdrop1]
  have hrev : ("127.0.1.1".toList ++ '\t' :: h.toList).reverse
      = (h.toList.reverse ++ ['\t']) ++ "127.0.1.1".toList.reverse := by
    rw [List.reverse_append, List.reverse_cons, List.append_assoc]
  rw [hrev, List.dropWhile_append]
  by_cases hemp : ((h.toList.reverse ++ ['\t']).dropWhile pyWs).isEmpty = true
  · rw [if_pos hemp]
    rw [show ("127.0.1.1".toList.reverse.dropWhile pyWs) = "127.0.1.1".toList.reverse from by decide]
    rw [List.reverse_reverse]
    exact List.isPrefixOf_iff_prefix.mpr (List.prefix_refl _)
  · rw [if_neg hemp, List.reverse_append, List.reverse_reverse]
    exact List.isPrefixOf_iff_prefix.mpr (List.prefix_append _ _)

/-! ## Claim C3: hosts-file alias rewrite -/

theorem hosts_fold_spec (h : String) :
    ∀ (lines : List String) (acc : List String) (u : Bool),
      ((lines.foldl (hostsStep h) (acc, u)).1.filter isAliasLine).length
        = (acc.filter isAliasLine).length + (lines.filter isAliasLine).length
      ∧ (lines.foldl (hostsStep h) (acc, u)).2 = (u || lines.any isAliasLine)
      ∧ ∀ l ∈ (lines.foldl (hostsStep h) (acc, u)).1,
          isAliasLine l = true → l = "127.0.1.1\t" ++ h ∨ l ∈ acc := by
  intro lines
  induction lines with
  | nil =>
    intro acc u
    refine ⟨by simp, by simp, ?_⟩
    intro l hl _
    exact Or.inr hl
  | cons a rest ih =>
    intro acc u
    rw [List.foldl_cons]
    by_cases hA : isAliasLine a = true
    · have hstep : hostsStep h (acc, u) a = (acc ++ ["127.0.1.1\t" ++ h], true) := by
        unfold hostsStep
        rw [if_pos hA]
      rw [hstep]
      obtain ⟨ih1, ih2, ih3⟩ := ih (acc ++ ["127.0.1.1\t" ++ h]) true
      refine ⟨?_, ?_, ?_⟩
      · rw [ih1, List.filter_append, List.length_append,
          List.filter_cons_of_pos hA, List.length_cons]
        have hone : (List.filter isAliasLine ["127.0.1.1\t" ++ h]).length = 1 := by
          rw [List.filter_cons_of_pos (isAliasLine_of_new h)]
          rfl
        rw [hone]
        omega
      · rw [ih2]
        simp [List.any_cons, hA]
      · intro l hl ha
        rcases ih3 l hl ha with heq | hmem
        · exact Or.inl heq
        · rcases List.mem_append.mp hmem with hacc | hnew
          · exact Or.inr hacc
          · exact Or.inl (List.mem_singleton.mp hnew)
    · have hA2 : isAliasLine a = false := by
        cases hb : isAliasLine a
        · rfl
        · exact absurd hb hA
      by_cases hB : (pyStartsWith (pyStrip a) "127.0.0.1" && pyContains a "localhost") = true
      · have hstep : hostsStep h (acc, u) a = (acc, u) := by
          unfold hostsStep
          rw [if_neg hA]
          rw [hB]
          rfl
        rw [hstep]
        obtain ⟨ih1, ih2, ih3⟩ := ih acc u
        refine ⟨?_, ?_, ih3⟩
        · rw [ih1, List.filter_cons_of_neg (by rw [hA2]; exact Bool.false_ne_true)]
        · rw [ih2]
          simp [List.any_cons, hA2]
      · have hB2 : (pyStartsWith (pyStrip a) "127.0.0.1" && pyContains a "localhost") = false := by
          cases hb : (pyStartsWith (pyStrip a) "127.0.0.1" && pyContains a "localhost")
          · rfl
          · exact absurd hb hB
        by_cases hC : pyContains a "127.0.1.1" = true
        · have hstep : hostsStep h (acc, u) a = (acc, u) := by
            unfold hostsStep
            rw [if_neg hA, hB2, hC]
            rfl
          rw [hstep]
          obtain ⟨ih1, ih2, ih3⟩ := ih acc u
          refine ⟨?_, ?_, ih3⟩
          · rw [ih1, List.filter_cons_of_neg (by rw [hA2]; exact Bool.false_ne_true)]
          · rw [ih2]
            simp [List.any_cons, hA2]
        · have hC2 : pyContains a "127.0.1.1" = false := by
            cases hb : pyContains a "127.0.1.1"
            · rfl
            · exact absurd hb hC
          have hstep : hostsStep h (acc, u) a = (acc ++ [a], u) := by
            unfold hostsStep
            rw [if_neg hA, hB2, hC2]
            rfl
          rw [hstep]
          obtain ⟨ih1, ih2, ih3⟩ := ih (acc ++ [a]) u
          refine ⟨?_, ?_, ?_⟩
          · have hneg : ¬ isAliasLine a = true := by
              rw [hA2]
              exact Bool.false_ne_true
            rw [ih1, List.filter_append, List.length_append,
              List.filter_cons_of_neg hneg, List.filter_cons_of_neg hneg]
            simp
          · rw [ih2]
            simp [List.any_cons, hA2]
          · intro l hl ha
            rcases ih3 l hl ha with heq | hmem
            · exact Or.inl heq
            · rcases List.mem_append.mp hmem with hacc | hsing
              · exact Or.inr hacc
              · rw [List.mem_singleton.mp hsing] at ha
                rw [hA2] at ha
                cases ha

/-- Counterexample to claim C3 as stated: with two pre-existing
`127.0.1.1` lines in the hosts file, the rewrite leaves two such lines,
not exactly one — each pre-existing alias line is replaced by its own
copy of the new alias line. -/
theorem hosts_update_duplicate_alias_counterexample :
    ¬ (((splitlines (update_hosts_file "web" "127.0.1.1 a\n127.0.1.1 b\n")).filter
        isAliasLine).length = 1) ∧
    ((splitlines (update_hosts_file "web" "127.0.1.1 a\n127.0.1.1 b\n")).filter
        isAliasLine).length = 2 := by
  decide

/-- Claim C3 amended: after the hosts rewrite every `127.0.1.1` line
carries the supplied hostname, and the number of such lines is the
number previously present — or one if there was none.  Exactly one
alias line is kept only when the prior content had at most one. -/
theorem hosts_update_alias_lines (h : String) (lines : List String) :
    ((update_hosts_lines h lines).filter isAliasLine).length
      = max 1 ((lines.filter isAliasLine).length) ∧
    ∀ l ∈ update_hosts_lines h lines, isAliasLine l = true → l = "127.0.1.1\t" ++ h := by
  obtain ⟨h1, h2, h3⟩ := hosts_fold_spec h lines [] false
  have h3b : ∀ l ∈ (lines.foldl (hostsStep h) ([], false)).1,
      isAliasLine l = true → l = "127.0.1.1\t" ++ h := by
    intro l hl ha
    rcases h3 l hl ha with heq | habs
    · exact heq
    · cases habs
  have hlocal : isAliasLine "127.0.0.1\tlocalhost" = false := by decide
  have hlocneg : ¬ isAliasLine "127.0.0.1\tlocalhost" = true := by
    rw [hlocal]
    exact Bool.false_ne_true
  unfold update_hosts_lines
  dsimp only
  rcases hflag : (List.foldl (hostsStep h) ([], false) lines).2 with _ | _
  · -- no pre-existing alias line: one fresh line is appended
    have hany : lines.any isAliasLine = false := by
      rw [hflag] at h2
      simpa using h2.symm
    have hknil : lines.filter isAliasLine = [] := by
      rw [List.filter_eq_nil_iff]
      intro x hx hax
      have hx2 : lines.any isAliasLine = true := List.any_eq_true.mpr ⟨x, hx, hax⟩
      rw [hany] at hx2
      cases hx2
    have hcnt : ((List.foldl (hostsStep h) ([], false) lines).1.filter isAliasLine).length
        = 0 := by
      rw [h1, hknil]
      rfl
    have hcnt2 : (((List.foldl (hostsStep h) ([], false) lines).1
        ++ ["127.0.1.1\t" ++ h]).filter isAliasLine).length = 1 := by
      rw [List.filter_append, List.length_append, hcnt,
        List.filter_cons_of_pos (isAliasLine_of_new h)]
      rfl
    simp only [Bool.false_eq_true, if_false]
    constructor
    · rw [hknil]
      have hmax : max 1 (List.length ([] : List String)) = 1 := max_eq_left (Nat.zero_le 1)
      rw [hmax]
      split
      · exact hcnt2
      · rw [List.filter_cons_of_neg hlocneg]
        exact hcnt2
    · intro l hl ha
      have hmem2 : l ∈ (List.foldl (hostsStep h) ([], false) lines).1
          ++ ["127.0.1.1\t" ++ h] := by
        split at hl
        · exact hl
        · rcases List.mem_cons.mp hl with hls | hlt
          · rw [hls, hlocal] at ha
            cases ha
          · exact hlt
      rcases List.mem_append.mp hmem2 with hfold | hnew
      · exact h3b l hfold ha
      · exact List.mem_singleton.mp hnew
  · -- at least one alias line existed: each was rewritten in place
    have hany : lines.any isAliasLine = true := by
      rw [hflag] at h2
      simpa using h2.symm
    have hpos : 1 ≤ (lines.filter isAliasLine).length := by
      rcases List.any_eq_true.mp hany with ⟨x, hx, hax⟩
      have hmem : x ∈ lines.filter isAliasLine := List.mem_filter.mpr ⟨hx, hax⟩
      exact List.length_pos.mpr (List.ne_nil_of_mem hmem)
    simp only [eq_self_iff_true, if_true]
    constructor
    · rw [max_eq_right hpos]
      split
      · rw [h1]
        simp
      · rw [List.filter_cons_of_neg hlocneg, h1]
        simp
    · intro l hl ha
      have hmem2 : l ∈ (List.foldl (hostsStep h) ([], false) lines).1 := by
        split at hl
        · exact hl
        · rcases List.mem_cons.mp hl with hls | hlt
          · rw [hls, hlocal] at ha
            cases ha
          · exact hlt
      exact h3b l hmem2 ha

/-- Witness for the amended C3 at a concrete hosts file. -/
theorem hosts_update_alias_lines_witness :
    "127.0.1.1\tweb" = "127.0.1.1\t" ++ "web" :=
  (hosts_update_alias_lines "web" ["127.0.1.1 old"]).2 "127.0.1.1\tweb"
    (by decide) (by decide)

/-! ## Claim C10: the two `_calculate_cidr` definitions agree on
well-formed netmasks -/

theorem pyInt_toString_fin : ∀ v : Fin 256, pyInt (toString v.val) = some (v.val : Int) := by
  decide

theorem catoul_toString_fin : ∀ v : Fin 256, catoul (toString v.val).toList = some v.val := by
  decide

theorem canonicalOctet_exists {s : String} (h : canonicalOctet s = true) :
    ∃ v : Fin 256, s = toString v.val := by
  rcases List.any_eq_true.mp h with ⟨v, hv, hbeq⟩
  exact ⟨⟨v, List.mem_range.mp hv⟩, eq_of_beq hbeq⟩

theorem mapMOpt_quad {α β : Type} (f : α → Option β) (a b c d : α) (va vb vc vd : β)
    (ha : f a = some va) (hb : f b = some vb) (hc : f c = some vc) (hd : f d = some vd) :
    mapMOpt f [a, b, c, d] = some [va, vb, vc, vd] := by
  simp [mapMOpt, ha, hb, hc, hd]

/-- Claim C10: on every well-formed dotted-quad netmask, the effective
second `_calculate_cidr` (per-octet binary-string 1 count) returns the
same CIDR string as the shadowed first definition (inet_aton packing
plus 1-bit count of the 32-bit value); the method shadowing therefore
changes behaviour only on malformed input. -/
theorem calculate_cidr_defs_agree_on_wellformed (ip_address netmask : String)
    (hwf : wellFormedDottedQuad netmask = true) :
    calculate_cidr ip_address netmask = some (calculate_cidr_first ip_address netmask) := by
  unfold wellFormedDottedQuad at hwf
  rcases hsplit : pySplit '.' netmask with _ | ⟨a, _ | ⟨b, _ | ⟨c, _ | ⟨d, _ | e⟩⟩⟩⟩ <;>
    rw [hsplit] at hwf <;>
    first
    | cases hwf
    | skip
  simp only [Bool.and_eq_true] at hwf
  obtain ⟨⟨⟨ha, hb⟩, hc⟩, hd⟩ := hwf
  obtain ⟨va, rfl⟩ := canonicalOctet_exists ha
  obtain ⟨vb, rfl⟩ := canonicalOctet_exists hb
  obtain ⟨vc, rfl⟩ := canonicalOctet_exists hc
  obtain ⟨vd, rfl⟩ := canonicalOctet_exists hd
  have hmap1 : mapMOpt pyInt
        [toString va.val, toString vb.val, toString vc.val, toString vd.val]
      = some [(va.val : Int), (vb.val : Int), (vc.val : Int), (vd.val : Int)] :=
    mapMOpt_quad pyInt _ _ _ _ _ _ _ _ (pyInt_toString_fin va) (pyInt_toString_fin vb)
      (pyInt_toString_fin vc) (pyInt_toString_fin vd)
  have hmap2 : mapMOpt (fun p => catoul p.toList)
        [toString va.val, toString vb.val, toString vc.val, toString vd.val]
      = some [va.val, vb.val, vc.val, vd.val] :=
    mapMOpt_quad _ _ _ _ _ _ _ _ _ (catoul_toString_fin va) (catoul_toString_fin vb)
      (catoul_toString_fin vc) (catoul_toString_fin vd)
  have hbounds : va.val ≤ 255 ∧ vb.val ≤ 255 ∧ vc.val ≤ 255 ∧ vd.val ≤ 255 :=
    ⟨by omega, by omega, by omega, by omega⟩
  have hp8 : ∀ a b : Nat, b < 256 → popcount (a * 256 + b) = popcount a + popcount b := by
    intro a b hb
    have h28 : (2 : Nat) ^ 8 = 256 := by norm_num
    have hres := popcount_mul_pow_add 8 a b (by rw [h28]; exact hb)
    rw [h28] at hres
    exact hres
  have hsum : List.foldl (fun acc v => acc + popcount v.natAbs) 0
      [(va.val : Int), (vb.val : Int), (vc.val : Int), (vd.val : Int)]
      = popcount (((va.val * 256 + vb.val) * 256 + vc.val) * 256 + vd.val) := by
    rw [hp8 _ vd.val (by omega), hp8 _ vc.val (by omega), hp8 _ vb.val (by omega)]
    simp [Int.natAbs_ofNat]
  have hfirst : calculate_cidr_first ip_address netmask
      = ip_address ++ "/"
        ++ toString (popcount (((va.val * 256 + vb.val) * 256 + vc.val) * 256 + vd.val)) := by
    unfold calculate_cidr_first inet_aton
    rw [hsplit, hmap2]
    dsimp only
    rw [if_pos hbounds]
  have hsecond : calculate_cidr ip_address netmask
      = some (ip_address ++ "/"
          ++ toString (List.foldl (fun acc v => acc + popcount v.natAbs) 0
              [(va.val : Int), (vb.val : Int), (vc.val : Int), (vd.val : Int)])) := by
    unfold calculate_cidr netmask_to_prefix_len
    rw [hsplit, hmap1]
    rfl
  rw [hsecond, hfirst, hsum]

/-- Witness for C10 at the concrete netmask `255.255.255.0`. -/
theorem calculate_cidr_defs_agree_on_wellformed_witness :
    calculate_cidr "192.168.1.10" "255.255.255.0"
      = some (calculate_cidr_first "192.168.1.10" "255.255.255.0") :=
  calculate_cidr_defs_agree_on_wellformed "192.168.1.10" "255.255.255.0" (by decide)

/-! ## Netplan store lemmas and claims C9, C1 -/

theorem two_le_length_of_two_mem {α : Type} {l : List α} {a b : α}
    (ha : a ∈ l) (hb : b ∈ l) (hne : a ≠ b) : 2 ≤ l.length := by
  match l with
  | [] => cases ha
  | [x] =>
    rw [List.mem_singleton.mp ha, List.mem_singleton.mp hb] at hne
    exact absurd rfl hne
  | x :: y :: t =>
    simp only [List.length_cons]
    omega

theorem nodup_keys_val_eq {α β : Type} :
    ∀ {l : List (α × β)}, (l.map Prod.fst).Nodup →
      ∀ {k : α} {v1 v2 : β}, (k, v1) ∈ l → (k, v2) ∈ l → v1 = v2 := by
  intro l
  induction l with
  | nil =>
    intro _ k v1 v2 h1
    cases h1
  | cons hd tl ih =>
    intro hnodup k v1 v2 h1 h2
    have hnodup2 : (hd.1 :: tl.map Prod.fst).Nodup := by
      rw [List.map_cons] at hnodup
      exact hnodup
    have hnd := List.nodup_cons.mp hnodup2
    rcases List.mem_cons.mp h1 with e1 | m1 <;> rcases List.mem_cons.mp h2 with e2 | m2
    · rw [← e1] at e2
      injection e2 with _ hv
      exact hv.symm
    · exfalso
      apply hnd.1
      have hk : hd.1 = k := by rw [← e1]
      rw [hk]
      exact List.mem_map.mpr ⟨(k, v2), m2, rfl⟩
    · exfalso
      apply hnd.1
      have hk : hd.1 = k := by rw [← e2]
      rw [hk]
      exact List.mem_map.mpr ⟨(k, v1), m1, rfl⟩
    · exact ih hnd.2 m1 m2

theorem hasIface_delIface (i : String) (eths : List (String × NetplanIfaceCfg)) :
    hasIface i (delIface i eths) = false := by
  cases hh : hasIface i (delIface i eths)
  · rfl
  · exfalso
    unfold hasIface delIface at hh
    rcases List.any_eq_true.mp hh with ⟨e, he, hbeq⟩
    have hmem := List.mem_filter.mp he
    have hne : e.1 ≠ i := by simpa using hmem.2
    exact hne (eq_of_beq hbeq)

/-- Counterexample to claim C9 as stated: the cleanup rewrite is
`yaml.dump` of the parsed document, so sibling definitions are not kept
byte-for-byte.  The concrete two-interface file below parses to a
document with `eth0` and `eth1`; cleanup of `eth0` keeps the file and
rewrites it as the dump of the `eth1`-only document, whose bytes no
longer contain the sibling's original commented line — and differ from
the original file with only the `eth0` block removed. -/
theorem cleanup_rewrite_not_byte_for_byte :
    yamlParseEthernets
        "network:\n  ethernets:\n    eth0:\n      dhcp4: true\n    eth1:\n      dhcp4: true # keep this comment\n  version: 2\n"
      = some [("eth0", ⟨some true, none, none, none⟩), ("eth1", ⟨some true, none, none, none⟩)] ∧
    cleanupFile "eth0"
        (.doc [("eth0", ⟨some true, none, none, none⟩), ("eth1", ⟨some true, none, none, none⟩)])
      = some (.doc [("eth1", ⟨some true, none, none, none⟩)]) ∧
    yamlDumpNetwork [("eth1", ⟨some true, none, none, none⟩)]
      = "network:\n  ethernets:\n    eth1:\n      dhcp4: true\n  version: 2\n" ∧
    pyContains
      "network:\n  ethernets:\n    eth0:\n      dhcp4: true\n    eth1:\n      dhcp4: true # keep this comment\n  version: 2\n"
      "      dhcp4: true # keep this comment" = true ∧
    pyContains (yamlDumpNetwork [("eth1", ⟨some true, none, none, none⟩)])
      "# keep this comment" = false ∧
    ¬ yamlDumpNetwork [("eth1", ⟨some true, none, none, none⟩)]
      = "network:\n  ethernets:\n    eth1:\n      dhcp4: true # keep this comment\n  version: 2\n" := by
  decide

/-- Claim C9 amended: per-document effect of the netplan cleanup at the
parsed-document level (the rewrite re-serializes, so formatting and
comments are not preserved byte-for-byte).  A document not defining the
target interface (including an unparsable one) is kept untouched; a
document defining it alongside at least one other interface is
rewritten with exactly the target entry deleted and every sibling
entry's parsed definition unchanged; a document whose sole entry is the
target is deleted, and a file is deleted only in that case. -/
theorem cleanup_netplan_preserves_siblings (i : String) (store : NetplanStore)
    (hnodup : (store.map Prod.fst).Nodup) (path : String) (c : NPContent)
    (hmem : (path, c) ∈ store) :
    (definesIface i c = false → (path, c) ∈ cleanup_netplan_files i store) ∧
    (∀ eths, c = .doc eths → hasIface i eths = true →
      (∃ e ∈ eths, e.1 ≠ i) →
      (path, .doc (delIface i eths)) ∈ cleanup_netplan_files i store) ∧
    (∀ eths, c = .doc eths → hasIface i eths = true → eths.length = 1 →
      ∀ c2, (path, c2) ∉ cleanup_netplan_files i store) := by
  refine ⟨?_, ?_, ?_⟩
  · intro hnd
    have hcf : cleanupFile i c = some c := by
      cases c with
      | unparsable => rfl
      | doc eths =>
        have hnd2 : hasIface i eths = false := by
          simpa [definesIface] using hnd
        simp [cleanupFile, hnd2]
    exact List.mem_filterMap.mpr ⟨(path, c), hmem, by rw [hcf]; rfl⟩
  · rintro eths rfl hhas ⟨e, hemem, hene⟩
    rcases List.any_eq_true.mp hhas with ⟨e2, he2mem, he2beq⟩
    have he2 : e2.1 = i := eq_of_beq he2beq
    have hne : e ≠ e2 := fun heq => hene (by rw [heq, he2])
    have hlen : ¬ eths.length = 1 := by
      have := two_le_length_of_two_mem hemem he2mem hne
      omega
    have hdelne : ¬ (delIface i eths).isEmpty = true := by
      rw [List.isEmpty_eq_true]
      intro hnil
      have hmem2 : e ∈ delIface i eths := by
        unfold delIface
        exact List.mem_filter.mpr ⟨hemem, by simpa using hene⟩
      rw [hnil] at hmem2
      cases hmem2
    have hcf : cleanupFile i (.doc eths) = some (.doc (delIface i eths)) := by
      simp only [cleanupFile, hhas, eq_self_iff_true, if_true]
      rw [if_neg hlen, if_neg hdelne]
    exact List.mem_filterMap.mpr ⟨(path, .doc eths), hmem, by rw [hcf]; rfl⟩
  · rintro eths rfl hhas hlen c2 hc2
    rcases List.mem_filterMap.mp hc2 with ⟨a, hamem, hamap⟩
    rcases hcf : cleanupFile i a.2 with _ | c3
    · rw [hcf] at hamap
      cases hamap
    · rw [hcf] at hamap
      have hpair : (a.1, c3) = (path, c2) := by
        injection hamap with h0
      have hap : a.1 = path := congrArg Prod.fst hpair
      have hsame : a.2 = NPContent.doc eths := by
        have hcmem : (path, a.2) ∈ store := by
          rw [← hap]
          exact hamem
        exact nodup_keys_val_eq hnodup hcmem hmem
      rw [hsame] at hcf
      simp only [cleanupFile, hhas, eq_self_iff_true, if_true] at hcf
      rw [if_pos hlen] at hcf
      cases hcf

/-- Witness for C9: a two-interface document keeps its sibling. -/
theorem cleanup_netplan_preserves_siblings_witness :
    ("/etc/netplan/50-cloud-init.yaml",
        NPContent.doc (delIface "eth0"
          [("eth0", ⟨some true, none, none, none⟩),
           ("eth1", ⟨none, some ["192.168.1.7/24"], none, none⟩)]))
      ∈ cleanup_netplan_files "eth0"
        [("/etc/netplan/50-cloud-init.yaml",
          NPContent.doc [("eth0", ⟨some true, none, none, none⟩),
            ("eth1", ⟨none, some ["192.168.1.7/24"], none, none⟩)])] :=
  (cleanup_netplan_preserves_siblings "eth0"
      [("/etc/netplan/50-cloud-init.yaml",
        NPContent.doc [("eth0", ⟨some true, none, none, none⟩),
          ("eth1", ⟨none, some ["192.168.1.7/24"], none, none⟩)])]
      (by decide) "/etc/netplan/50-cloud-init.yaml" _ (by decide)).2.1
    [("eth0", ⟨some true, none, none, none⟩),
     ("eth1", ⟨none, some ["192.168.1.7/24"], none, none⟩)]
    rfl (by decide) ⟨("eth1", ⟨none, some ["192.168.1.7/24"], none, none⟩), by decide, by decide⟩

theorem cleanup_not_defines (i : String) (store : NetplanStore) :
    ∀ f ∈ cleanup_netplan_files i store, definesIface i f.2 = false := by
  intro f hf
  rcases List.mem_filterMap.mp hf with ⟨a, _, hamap⟩
  rcases hcf : cleanupFile i a.2 with _ | c
  · rw [hcf] at hamap
    cases hamap
  · rw [hcf] at hamap
    have hpair : (a.1, c) = f := by
      injection hamap with h0
    rw [← hpair]
    show definesIface i c = false
    rcases a2 : a.2 with _ | eths
    · rw [a2] at hcf
      simp only [cleanupFile] at hcf
      injection hcf with h0
      rw [← h0]
      rfl
    · rw [a2] at hcf
      cases hh : hasIface i eths with
      | false =>
        simp only [cleanupFile, hh, Bool.false_eq_true, if_false] at hcf
        injection hcf with h0
        rw [← h0]
        simpa [definesIface] using hh
      | true =>
        simp only [cleanupFile, hh, eq_self_iff_true, if_true] at hcf
        by_cases hl : eths.length = 1
        · rw [if_pos hl] at hcf
          cases hcf
        · rw [if_neg hl] at hcf
          by_cases he : (delIface i eths).isEmpty = true
          · rw [if_pos he] at hcf
            cases hcf
          · rw [if_neg he] at hcf
            injection hcf with h0
            rw [← h0]
            simpa [definesIface] using hasIface_delIface i eths

theorem cleanup_nodup_names (i : String) :
    ∀ store : NetplanStore, (store.map Prod.fst).Nodup →
      ((cleanup_netplan_files i store).map Prod.fst).Nodup := by
  have hsub : ∀ store : NetplanStore,
      List.Sublist ((cleanup_netplan_files i store).map Prod.fst) (store.map Prod.fst) := by
    intro store
    induction store with
    | nil => exact List.Sublist.refl _
    | cons f t ih =>
      unfold cleanup_netplan_files at *
      rw [List.filterMap_cons]
      cases hcf : cleanupFile i f.2 with
      | none =>
        simp only [Option.map_none']
        rw [List.map_cons]
        exact List.Sublist.cons _ ih
      | some c =>
        simp only [Option.map_some']
        rw [List.map_cons, List.map_cons]
        exact List.Sublist.cons₂ _ ih
  intro store hnodup
  exact List.Nodup.sublist (hsub store) hnodup

theorem filter_defines_map_replace (i fname : String) (d : NPContent)
    (hd : definesIface i d = true) :
    ∀ st : NetplanStore,
      (∀ f ∈ st, definesIface i f.2 = false) →
      (st.map Prod.fst).Nodup →
      st.any (fun f => f.1 == fname) = true →
      (st.map (fun f => if f.1 == fname then (fname, d) else f)).filter
        (fun f => definesIface i f.2) = [(fname, d)] := by
  intro st
  induction st with
  | nil =>
    intro _ _ hany
    cases hany
  | cons g t ih =>
    intro hall hnodup hany
    have hnodup2 : (g.1 :: t.map Prod.fst).Nodup := by
      rw [List.map_cons] at hnodup
      exact hnodup
    have hnd := List.nodup_cons.mp hnodup2
    cases hg : (g.1 == fname) with
    | true =>
      have hgeq : g.1 = fname := eq_of_beq hg
      have hnotin : fname ∉ t.map Prod.fst := by
        rw [← hgeq]
        exact hnd.1
      have hmapid : t.map (fun f => if f.1 == fname then (fname, d) else f) = t := by
        have hcong : ∀ f ∈ t, (if f.1 == fname then (fname, d) else f) = id f := by
          intro f hf
          have hne : (f.1 == fname) = false := by
            cases hb : (f.1 == fname)
            · rfl
            · exact absurd (List.mem_map.mpr ⟨f, hf, eq_of_beq hb⟩) hnotin
          rw [hne]
          rfl
        rw [List.map_congr_left hcong, List.map_id]
      have hfiltert : t.filter (fun f => definesIface i f.2) = [] :=
        List.filter_eq_nil_iff.mpr (fun f hf => by
          rw [hall f (List.mem_cons_of_mem g hf)]
          exact Bool.false_ne_true)
      rw [List.map_cons, hmapid, hg]
      simp only [if_true]
      simp [List.filter_cons, hd, hfiltert]
    | false =>
      have hany2 : t.any (fun f => f.1 == fname) = true := by
        rw [List.any_cons, hg] at hany
        simpa using hany
      have hgfalse : definesIface i g.2 = false := hall g (List.mem_cons_self g t)
      rw [List.map_cons, hg]
      simp only [Bool.false_eq_true, if_false]
      simp only [List.filter_cons, hgfalse, Bool.false_eq_true, if_false]
      exact ih (fun f hf => hall f (List.mem_cons_of_mem g hf)) hnd.2 hany2

theorem filter_defines_writeStore (i fname : String) (st : NetplanStore) (d : NPContent)
    (hall : ∀ f ∈ st, definesIface i f.2 = false)
    (hnodup : (st.map Prod.fst).Nodup)
    (hd : definesIface i d = true) :
    (writeStore st fname d).filter (fun f => definesIface i f.2) = [(fname, d)] := by
  unfold writeStore
  by_cases hpres : st.any (fun f => f.1 == fname) = true
  · rw [if_pos hpres]
    exact filter_defines_map_replace i fname d hd st hall hnodup hpres
  · rw [if_neg hpres, List.filter_append]
    have h1 : st.filter (fun f => definesIface i f.2) = [] :=
      List.filter_eq_nil_iff.mpr (fun f hf => by
        rw [hall f hf]
        exact Bool.false_ne_true)
    rw [h1]
    simp [List.filter_cons, hd]

theorem apply_ip_directly_frame (env : ExecEnv) (i : String) (config : NetCfg) (w : World) :
    (apply_ip_directly env i config w).1.netplan = w.netplan ∧
    (apply_ip_directly env i config w).1.interfacesFile = w.interfacesFile := by
  refine ⟨?_, ?_⟩ <;>
  · unfold apply_ip_directly runW update_dns_servers
    dsimp only
    repeat' split
    all_goals rfl

theorem apply_ip_netplan_eq (env : ExecEnv) (i : String) (config : NetCfg) (w : World) :
    (apply_ip_directly env i config w).1.netplan = w.netplan :=
  (apply_ip_directly_frame env i config w).1

theorem configure_netplan_store_eq (env : ExecEnv) (is_container : Bool) (i : String)
    (config : NetCfg) (w : World) :
    (configure_netplan env is_container i config w).1.netplan
      = match buildNetplanIfaceCfg config with
        | none => cleanup_netplan_files i w.netplan
        | some s =>
          writeStore (cleanup_netplan_files i w.netplan)
            ("/etc/netplan/01-" ++ i ++ ".yaml") (.doc [(i, s)]) := by
  cases hb : buildNetplanIfaceCfg config with
  | none =>
    unfold configure_netplan
    rw [hb]
  | some s =>
    unfold configure_netplan runW
    rw [hb]
    dsimp only
    repeat' split
    all_goals simp [apply_ip_netplan_eq]

theorem configure_netplan_fails_on_bad_settings (env : ExecEnv) (is_container : Bool)
    (i : String) (config : NetCfg) (w : World)
    (hb : buildNetplanIfaceCfg config = none) :
    (configure_netplan env is_container i config w).2 = .serverError := by
  unfold configure_netplan
  rw [hb]

/-- Claim C1: if a netplan configure completes successfully, the store
afterwards has exactly one document defining the interface — the
freshly written `01-<name>.yaml` — and it carries exactly the settings
built from the request; every other definition has been removed. -/
theorem netplan_upsert_unique_definition (env : ExecEnv) (is_container : Bool) (i : String)
    (config : NetCfg) (w : World)
    (hnodup : (w.netplan.map Prod.fst).Nodup)
    (hsucc : (configure_netplan env is_container i config w).2 = .success) :
    ∃ s, buildNetplanIfaceCfg config = some s ∧
      ((configure_netplan env is_container i config w).1.netplan.filter
          (fun f => definesIface i f.2))
        = [("/etc/netplan/01-" ++ i ++ ".yaml", .doc [(i, s)])] := by
  cases hb : buildNetplanIfaceCfg config with
  | none =>
    rw [configure_netplan_fails_on_bad_settings env is_container i config w hb] at hsucc
    cases hsucc
  | some s =>
    refine ⟨s, rfl, ?_⟩
    rw [configure_netplan_store_eq env is_container i config w, hb]
    exact filter_defines_writeStore i ("/etc/netplan/01-" ++ i ++ ".yaml")
      (cleanup_netplan_files i w.netplan) (.doc [(i, s)])
      (cleanup_not_defines i w.netplan)
      (cleanup_nodup_names i w.netplan hnodup)
      (by simp [definesIface, hasIface])

/-- Witness for C1: a successful DHCP upsert over a store that already
defined the interface in another two-interface document. -/
theorem netplan_upsert_unique_definition_witness :
    ∃ s, buildNetplanIfaceCfg ⟨"10.0.0.5", "255.255.255.0", none, none, true⟩ = some s ∧
      ((configure_netplan ⟨fun _ => CmdResult.ok, some ["eth0"]⟩ true "eth0"
            ⟨"10.0.0.5", "255.255.255.0", none, none, true⟩
            ⟨[("/etc/netplan/99-old.yaml",
                NPContent.doc [("eth0", ⟨some true, none, none, none⟩),
                  ("eth1", ⟨none, some ["192.168.1.7/24"], none, none⟩)])],
              none, [], []⟩).1.netplan.filter
          (fun f => definesIface "eth0" f.2))
        = [("/etc/netplan/01-" ++ "eth0" ++ ".yaml", .doc [("eth0", s)])] :=
  netplan_upsert_unique_definition ⟨fun _ => CmdResult.ok, some ["eth0"]⟩ true "eth0"
    ⟨"10.0.0.5", "255.255.255.0", none, none, true⟩
    ⟨[("/etc/netplan/99-old.yaml",
        NPContent.doc [("eth0", ⟨some true, none, none, none⟩),
          ("eth1", ⟨none, some ["192.168.1.7/24"], none, none⟩)])],
      none, [], []⟩
    (by decide) (by decide)

end LinuxNetAPI
